import Mathlib

/-
Verification development for the Nova personal-assistant core:
a shallow embedding of the TTL cache (smart_cache.py), the intent
classifier, temporal extractors, journal and message dispatcher
(nova_core.py), and the proactive agent's pending-action queue
(agent_core.py), together with theorems settling the specification
claims about them.

Modelling conventions:
  - instants are naive local times measured in whole seconds from a
    midnight epoch (Nat); cache timestamps from time.time() are Int
    seconds; strftime/strptime of the fixed "%Y-%m-%d %H:%M:%S" format
    are modelled as the identity on those instants;
  - Python dicts holding the cache are association lists with unique
    keys; JSON persistence is modelled by an explicit Json value type
    with encode/decode functions;
  - a raised ValueError inside due-date parsing is modelled by
    Except.error, caught at the process_message top level exactly as
    the source's try/except does;
  - external HTTP lookups (Wikipedia, weather, news) are an
    environment record of abstract result-returning functions.
-/

set_option autoImplicit false
set_option maxRecDepth 2000

/-! Character and string utilities shared by the embedding.  These work
on the underlying character lists so that everything reduces in the
kernel. -/

def isWsChar (c : Char) : Bool :=
  c.toNat = 32 || (9 ≤ c.toNat && c.toNat ≤ 13)

def isWordChar (c : Char) : Bool :=
  c.isAlphanum || c = '_'

def lowerChar (c : Char) : Char :=
  if 65 ≤ c.toNat && c.toNat ≤ 90 then Char.ofNat (c.toNat + 32) else c

def lowerStr (s : String) : String :=
  String.mk (s.data.map lowerChar)

def isPrefixCL : List Char → List Char → Bool
  | [], _ => true
  | _ :: _, [] => false
  | a :: as, b :: bs => a = b && isPrefixCL as bs

def isInfixCL (needle : List Char) : List Char → Bool
  | [] => needle.isEmpty
  | c :: rest => isPrefixCL needle (c :: rest) || isInfixCL needle rest

def containsStr (hay needle : String) : Bool :=
  isInfixCL needle.data hay.data

def startsWithStr (s p : String) : Bool :=
  isPrefixCL p.data s.data

def trimCL (cs : List Char) : List Char :=
  (((cs.dropWhile isWsChar).reverse).dropWhile isWsChar).reverse

def trimStr (s : String) : String :=
  String.mk (trimCL s.data)

def natOfDigits (ds : List Char) : Nat :=
  ds.foldl (fun n c => n * 10 + (c.toNat - 48)) 0

def takeLast {α : Type} (n : Nat) (l : List α) : List α :=
  l.drop (l.length - n)

/-! The TTL cache of smart_cache.py.  `cache_data` is the in-memory
dict, `cache_file` the contents of the backing JSON file (save_cache
serialises `cache_data` into it). -/

structure CacheEntry (α : Type) where
  data : α
  expires_at : Int
  created_at : Int
deriving DecidableEq

structure SmartCache (α : Type) where
  cache_data : List (String × CacheEntry α)
  cache_file : List (String × CacheEntry α)
deriving DecidableEq

def lookupKey {α : Type} (k : String) : List (String × CacheEntry α) → Option (CacheEntry α)
  | [] => none
  | (k', e) :: rest => if k' = k then some e else lookupKey k rest

def eraseKey {α : Type} (k : String) : List (String × CacheEntry α) → List (String × CacheEntry α)
  | [] => []
  | (k', e) :: rest => if k' = k then eraseKey k rest else (k', e) :: eraseKey k rest

def setKey {α : Type} (k : String) (e : CacheEntry α) : List (String × CacheEntry α) → List (String × CacheEntry α)
  | [] => [(k, e)]
  | (k', e') :: rest => if k' = k then (k, e) :: rest else (k', e') :: setKey k e rest

def SmartCache.save_cache {α : Type} (c : SmartCache α) : SmartCache α :=
  { c with cache_file := c.cache_data }

def SmartCache.get {α : Type} (c : SmartCache α) (key : String) (now : Int) :
    Option α × SmartCache α :=
  match lookupKey key c.cache_data with
  | some entry =>
      if now < entry.expires_at then (some entry.data, c)
      else (none, { c with cache_data := eraseKey key c.cache_data })
  | none => (none, c)

def SmartCache.set {α : Type} (c : SmartCache α) (key : String) (value : α)
    (ttl_seconds : Int) (now : Int) : SmartCache α :=
  let entry : CacheEntry α :=
    { data := value, expires_at := now + ttl_seconds, created_at := now }
  SmartCache.save_cache { c with cache_data := setKey key entry c.cache_data }

def SmartCache.delete {α : Type} (c : SmartCache α) (key : String) : SmartCache α :=
  match lookupKey key c.cache_data with
  | some _ => SmartCache.save_cache { c with cache_data := eraseKey key c.cache_data }
  | none => c

def SmartCache.clear {α : Type} (c : SmartCache α) : SmartCache α :=
  SmartCache.save_cache { c with cache_data := [] }

def SmartCache.clean_expired {α : Type} (c : SmartCache α) (now : Int) : SmartCache α :=
  let remaining := c.cache_data.filter (fun p => decide (now < p.2.expires_at))
  let removedAny := c.cache_data.any (fun p => decide (p.2.expires_at ≤ now))
  if removedAny then SmartCache.save_cache { c with cache_data := remaining }
  else { c with cache_data := remaining }

/-! The intent classifier of nova_core.py: one fixed keyword list per
category, matched by case-insensitive substring containment in the
priority order written out in NovaCore.detect_category. -/

def taskKeywords : List String :=
  ["do", "complete", "make", "build", "create", "finish", "setup", "develop",
   "design", "get done", "finish up", "carry out", "execute", "work on",
   "resolve", "fix", "implement", "write", "code", "plan", "organize"]

def ideaKeywords : List String :=
  ["idea", "think", "concept", "invention", "vision", "plan", "brainstorm",
   "imagine", "suggestion", "proposal", "possibility", "consider", "dream"]

def reminderKeywords : List String :=
  ["remind", "remember", "note", "don\x27t forget", "ping me", "set a reminder",
   "alert me", "notify me", "alarm", "prompt me"]

def noteKeywords : List String :=
  ["note", "log", "write down", "record", "jot down", "memo", "capture",
   "document", "save this"]

def recurringKeywords : List String :=
  ["every", "daily", "weekly", "monthly", "annually", "each day", "each week",
   "each month", "each year", "repeat", "recur", "recurring"]

def knowledgeKeywords : List String :=
  ["what is", "who is", "tell me about", "explain", "define", "how does",
   "when did", "where is", "why does", "search for", "look up", "find information",
   "wikipedia:", "wiki:", "search wikipedia", "look up on wikipedia"]

def weatherKeywords : List String :=
  ["weather", "temperature", "forecast", "rain", "sunny", "cloudy", "storm",
   "hot", "cold", "climate", "humidity", "wind"]

def newsKeywords : List String :=
  ["news", "headlines", "current events", "what\x27s happening", "latest news",
   "breaking news", "today\x27s news", "recent news"]

def keywordHit (keywords : List String) (low : String) : Bool :=
  keywords.any (fun kw => containsStr low kw)

def detect_category (text : String) : String :=
  let low := lowerStr text
  if keywordHit recurringKeywords low then "recurring_reminder"
  else if keywordHit knowledgeKeywords low then "knowledge_query"
  else if keywordHit weatherKeywords low then "weather"
  else if keywordHit newsKeywords low then "news"
  else if keywordHit taskKeywords low then "task"
  else if keywordHit ideaKeywords low then "idea"
  else if keywordHit reminderKeywords low then "reminder"
  else if keywordHit noteKeywords low then "note"
  else "uncategorized"

/-! The temporal extractors.  Each regex of the source is rendered as a
leftmost-match scanner over the character list, reproducing the greedy
behaviour of the concrete patterns used. -/

def extract_tags_aux : List Char → List String
  | [] => []
  | c :: rest =>
    if c = '#' then
      let w := rest.takeWhile isWordChar
      if w.isEmpty then extract_tags_aux rest
      else String.mk ('#' :: w) :: extract_tags_aux rest
    else extract_tags_aux rest

def extract_tags (text : String) : List String :=
  extract_tags_aux text.data

def locRunFrom (rest : List Char) : Option (List Char) :=
  let run := rest.takeWhile (fun c => isWordChar c || isWsChar c)
  let loc := ((run.reverse).dropWhile isWsChar).reverse
  match loc with
  | [] => none
  | c :: _ => if isWordChar c then some loc else none

def searchLocAux (pat : List Char) : List Char → Option String
  | [] => none
  | c :: rest =>
    if isPrefixCL pat (c :: rest) then
      match locRunFrom ((c :: rest).drop pat.length) with
      | some loc => some (String.mk loc)
      | none => searchLocAux pat rest
    else searchLocAux pat rest

def locStopWords : List String :=
  ["today", "tomorrow", "now", "me", "us", "here"]

def tryLocPattern (pat : String) (low : String) : Option String :=
  match searchLocAux pat.data low.data with
  | some loc => if loc ∈ locStopWords then none else some loc
  | none => none

def extract_location (text : String) : Option String :=
  let low := lowerStr text
  match tryLocPattern ("in ") low with
  | some loc => some loc
  | none =>
    match tryLocPattern ("for ") low with
    | some loc => some loc
    | none => tryLocPattern ("at ") low

def searchWordAux (pat : List Char) : List Char → Option String
  | [] => none
  | c :: rest =>
    if isPrefixCL pat (c :: rest) then
      let w := ((c :: rest).drop pat.length).takeWhile isWordChar
      if w.isEmpty then searchWordAux pat rest
      else some (String.mk w)
    else searchWordAux pat rest

def extract_recurring (text : String) : Option String :=
  let low := lowerStr text
  if containsStr low ("daily") then some ("daily")
  else if containsStr low ("weekly") then some ("weekly")
  else if containsStr low ("monthly") then some ("monthly")
  else if containsStr low ("annually") then some ("annually")
  else
    match searchWordAux ("every ").data low.data with
    | some w => some ("every " ++ w)
    | none => none

def timeUnitAlternatives : List String :=
  ["day", "days", "hour", "hours", "week", "weeks", "month", "months"]

def matchInAt : List Char → Option (Nat × String)
  | 'i' :: 'n' :: ' ' :: rest =>
    let ds := rest.takeWhile Char.isDigit
    if ds.isEmpty then none
    else
      match rest.drop ds.length with
      | ' ' :: rest2 =>
        match timeUnitAlternatives.find? (fun u => isPrefixCL u.data rest2) with
        | some u => some (natOfDigits ds, u)
        | none => none
      | _ => none
  | _ => none

def searchInPattern : List Char → Option (Nat × String)
  | [] => none
  | c :: rest =>
    match matchInAt (c :: rest) with
    | some r => some r
    | none => searchInPattern rest

def matchAtTimeAt : List Char → Option (Nat × Nat × Option Bool)
  | 'a' :: 't' :: ' ' :: rest =>
    let ds := (rest.takeWhile Char.isDigit).take 2
    if ds.isEmpty then none
    else
      let rest1 := rest.drop ds.length
      let mr : Option Nat × List Char :=
        match rest1 with
        | ':' :: m1 :: m2 :: r2 =>
          if m1.isDigit && m2.isDigit then (some (natOfDigits [m1, m2]), r2)
          else (none, rest1)
        | _ => (none, rest1)
      let rest3 := mr.2.dropWhile isWsChar
      let ampm : Option Bool :=
        if isPrefixCL ("am").data rest3 then some false
        else if isPrefixCL ("pm").data rest3 then some true
        else none
      some (natOfDigits ds, (mr.1.getD 0), ampm)
  | _ => none

def searchAtTime : List Char → Option (Nat × Nat × Option Bool)
  | [] => none
  | c :: rest =>
    match matchAtTimeAt (c :: rest) with
    | some r => some r
    | none => searchAtTime rest

def dayStart (d : Nat) : Nat := d - d % 86400

deriving instance DecidableEq for Except

def parse_due_date (now : Nat) (text : String) : Except String (Option Nat) :=
  let low := lowerStr text
  let due : Option Nat :=
    if containsStr low ("today") then some now
    else if containsStr low ("tomorrow") then some (now + 86400)
    else if containsStr low ("day after tomorrow") then some (now + 2 * 86400)
    else if containsStr low ("next week") then some (now + 7 * 86400)
    else if containsStr low ("in ") then
      match searchInPattern low.data with
      | some (amount, unit) =>
        if containsStr unit ("day") then some (now + amount * 86400)
        else if containsStr unit ("hour") then some (now + amount * 3600)
        else if containsStr unit ("week") then some (now + amount * 7 * 86400)
        else if containsStr unit ("month") then some (now + 30 * amount * 86400)
        else none
      | none => none
    else none
  match due with
  | none => Except.ok none
  | some d =>
    match searchAtTime low.data with
    | none => Except.ok (some d)
    | some (h0, minute, ampm) =>
      let hour :=
        match ampm with
        | some true => if h0 ≠ 12 then h0 + 12 else h0
        | some false => if h0 = 12 then 0 else h0
        | none => h0
      if hour < 24 && minute < 60 then
        Except.ok (some (dayStart d + hour * 3600 + minute * 60))
      else Except.error ("ValueError")

/-! Journal entries and their JSON persistence (nova_core.py
load_memory / save_memory / log_entry).  A `Json` value stands for the
contents of the nova_memory.json file. -/

inductive Json where
  | null : Json
  | num (n : Nat) : Json
  | str (s : String) : Json
  | arr (elems : List Json) : Json
  | obj (fields : List (String × Json)) : Json

structure Entry where
  timestamp : Nat
  category : String
  text : String
  tags : List String
  due_date : Option Nat
  recurring : Option String
deriving DecidableEq

def optNumJson : Option Nat → Json
  | none => Json.null
  | some n => Json.num n

def entryToJson (e : Entry) : Json :=
  Json.obj
    ([("timestamp", Json.num e.timestamp),
      ("category", Json.str e.category),
      ("text", Json.str e.text),
      ("tags", Json.arr (e.tags.map Json.str)),
      ("due_date", optNumJson e.due_date)] ++
     (match e.recurring with
      | some r => [("recurring", Json.str r)]
      | none => []))

def jsonLookup (k : String) : List (String × Json) → Option Json
  | [] => none
  | (k', v) :: rest => if k' = k then some v else jsonLookup k rest

def strListOfJson : List Json → Option (List String)
  | [] => some []
  | Json.str s :: rest =>
    match strListOfJson rest with
    | some l => some (s :: l)
    | none => none
  | _ :: _ => none

def entryOfJson : Json → Option Entry
  | Json.obj fields =>
    match jsonLookup ("timestamp") fields, jsonLookup ("category") fields,
          jsonLookup ("text") fields, jsonLookup ("tags") fields with
    | some (Json.num ts), some (Json.str cat), some (Json.str tx), some (Json.arr tjs) =>
      match strListOfJson tjs with
      | some tags =>
        let due : Option Nat :=
          match jsonLookup ("due_date") fields with
          | some (Json.num d) => some d
          | _ => none
        let recOpt : Option String :=
          match jsonLookup ("recurring") fields with
          | some (Json.str r) => some r
          | _ => none
        some { timestamp := ts, category := cat, text := tx, tags := tags,
               due_date := due, recurring := recOpt }
      | none => none
    | _, _, _, _ => none
  | _ => none

def encodeMemory (l : List Entry) : Json :=
  Json.arr (l.map entryToJson)

def decodeEntries : List Json → Option (List Entry)
  | [] => some []
  | j :: rest =>
    match entryOfJson j, decodeEntries rest with
    | some e, some l => some (e :: l)
    | _, _ => none

def decodeMemory : Json → Option (List Entry)
  | Json.arr js => decodeEntries js
  | _ => none

/-- The journal state of NovaCore: the in-memory entry list and the
contents of the backing nova_memory.json file. -/
structure NovaState where
  memory_log : List Entry
  memory_file : Json

def save_memory (st : NovaState) : NovaState :=
  { st with memory_file := encodeMemory st.memory_log }

/-- load_memory: a readable file is parsed; a missing or corrupt store
yields the empty journal. -/
def load_memory (file : Json) : List Entry :=
  (decodeMemory file).getD []

def log_entry (nowT : Nat) (category content : String) (tags : List String)
    (due_date : Option Nat) (recurring : Option String) (st : NovaState) : NovaState :=
  let entry : Entry :=
    { timestamp := nowT, category := category, text := content, tags := tags,
      due_date := due_date,
      recurring :=
        match recurring with
        | some r => if r = "" then none else some r
        | none => none }
  save_memory { st with memory_log := st.memory_log ++ [entry] }

/-! The message dispatcher (NovaCore.process_message and its helpers).
External lookups are an environment of abstract functions; a response
keeps the fields the claims speak about. -/

structure ApiEnv where
  wiki : String → Option String
  weather : String → Option String
  weatherStatus : String
  news : List String
  newsStatus : String

structure Response where
  rtype : String
  response : String
  entries : List Entry := []

def afterColonCL : List Char → List Char
  | [] => []
  | c :: rest => if c = ':' then rest else afterColonCL rest

/-- The remainder of a wikipedia:/wiki: message after the first colon,
stripped (message.split with one colon, index 1, then strip). -/
def wikiQuery (message : String) : String :=
  trimStr (String.mk (afterColonCL message.data))

/-- The forced-Wikipedia branch of process_message: look the query up,
log a note on success, and build the response without consulting the
classifier. -/
def forcedWikiLookup (env : ApiEnv) (nowT : Nat) (st : NovaState) (query : String) :
    Response × NovaState :=
  match env.wiki query with
  | some summary =>
    let st1 := log_entry nowT ("note") ("Asked about: " ++ query) [] none none st
    ({ rtype := "knowledge", response := summary }, st1)
  | none =>
    ({ rtype := "error",
       response := "I couldn\x27t find specific information about \x27" ++ query ++
         "\x27 on Wikipedia. Try rephrasing your question or being more specific." }, st)

def handle_api_query (env : ApiEnv) (nowT : Nat) (st : NovaState)
    (message category : String) : Response × NovaState :=
  if category = "knowledge_query" then
    match env.wiki message with
    | some summary =>
      let st1 := log_entry nowT ("note") ("Asked about: " ++ message) [] none none st
      ({ rtype := "knowledge", response := summary }, st1)
    | none =>
      ({ rtype := "error",
         response := "I couldn\x27t find information about that. Could you try rephrasing your question?" }, st)
  else if category = "weather" then
    let location := (extract_location message).getD ("current location")
    match env.weather location with
    | some report =>
      ({ rtype := "weather", response := "Weather in " ++ location ++ ": " ++ report }, st)
    | none =>
      if env.weatherStatus = "no_key" then
        ({ rtype := "error",
           response := "I\x27d love to get weather information for " ++ location ++
             ", but I need a weather API key to access current conditions." }, st)
      else
        ({ rtype := "error",
           response := "I couldn\x27t get weather information for " ++ location ++
             ". The weather service might be temporarily unavailable." }, st)
  else
    match env.news with
    | headline :: _ =>
      ({ rtype := "news",
         response := "Here are the latest headlines: " ++ headline,
         entries := [] }, st)
    | [] =>
      if env.newsStatus = "no_key" then
        ({ rtype := "error",
           response := "I\x27d love to get the latest news for you, but I need a news API key to access current headlines." }, st)
      else
        ({ rtype := "error",
           response := "I couldn\x27t retrieve the latest news right now. The news service might be temporarily unavailable." }, st)

def memoryOpResponse (category message : String) (due : Option Nat) : String :=
  if category = "task" then
    "Task logged: " ++ message ++
      (match due with | some d => " (Due: " ++ Nat.repr d ++ ")" | none => "")
  else if category = "reminder" then
    "Reminder set: " ++ message ++
      (match due with | some d => " (On: " ++ Nat.repr d ++ ")" | none => "")
  else if category = "idea" then "Idea captured: " ++ message
  else if category = "note" then "Note saved: " ++ message
  else if category = "recurring_reminder" then "Recurring reminder set: " ++ message
  else "Logged: " ++ message

def handle_memory_operation (nowT : Nat) (st : NovaState) (message category : String) :
    Except String (Response × NovaState) :=
  let tags := extract_tags message
  match parse_due_date nowT message with
  | Except.error e => Except.error e
  | Except.ok due_date =>
    let recurring := extract_recurring message
    let st1 := log_entry nowT category message tags due_date recurring st
    Except.ok
      ({ rtype := "success", response := memoryOpResponse category message due_date }, st1)

def afterLastColonCL (cs : List Char) : List Char :=
  ((cs.reverse).takeWhile (fun c => ¬ c = ':')).reverse

def handle_memory_commands (st : NovaState) (command : String) : Response :=
  let cl := lowerStr command
  if cl = "show memory" then
    let entries := takeLast 20 st.memory_log
    { rtype := "memory",
      response := "Showing your recent memory (" ++ Nat.repr entries.length ++ " entries):",
      entries := entries }
  else if startsWithStr cl ("show category:") then
    let category := trimStr (String.mk (afterLastColonCL cl.data))
    let entries := st.memory_log.filter (fun e => decide (e.category = category))
    { rtype := "memory",
      response := "Showing entries in category \x27" ++ category ++ "\x27:",
      entries := takeLast 10 entries }
  else if startsWithStr cl ("show #") then
    let tags := extract_tags cl
    let entries := st.memory_log.filter (fun e => e.tags.any (fun t => tags.contains t))
    { rtype := "memory",
      response := "Showing entries with the requested tags:",
      entries := takeLast 10 entries }
  else
    { rtype := "error",
      response := "I don\x27t recognize that command. Try \x27show memory\x27, \x27show category:task\x27, or \x27show #tag\x27." }

def helpResponse : Response :=
  { rtype := "help", response := "Nova Commands & Capabilities" }

def clear_memory (st : NovaState) : Response × NovaState :=
  ({ rtype := "system", response := "Memory cleared successfully." },
   save_memory { st with memory_log := [] })

def processRest (env : ApiEnv) (nowT : Nat) (st : NovaState) (message : String) :
    Except String (Response × NovaState) :=
  let low := lowerStr message
  if startsWithStr low ("show") then Except.ok (handle_memory_commands st message, st)
  else if low = "help" then Except.ok (helpResponse, st)
  else if low = "clear memory" then Except.ok (clear_memory st)
  else
    let category := detect_category message
    if category = "knowledge_query" || category = "weather" || category = "news" then
      Except.ok (handle_api_query env nowT st message category)
    else
      handle_memory_operation nowT st message category

def processMessageE (env : ApiEnv) (nowT : Nat) (st : NovaState) (message : String) :
    Except String (Response × NovaState) :=
  if startsWithStr (lowerStr message) ("wikipedia:") || startsWithStr (lowerStr message) ("wiki:") then
    if wikiQuery message = "" then processRest env nowT st message
    else Except.ok (forcedWikiLookup env nowT st (wikiQuery message))
  else processRest env nowT st message

/-- process_message: the top-level entry point; any exception raised
inside is converted to the generic apologetic error response. -/
def process_message (env : ApiEnv) (nowT : Nat) (st : NovaState) (message : String) :
    Response × NovaState :=
  match processMessageE env nowT st message with
  | Except.ok r => r
  | Except.error _ =>
    ({ rtype := "error",
       response := "I encountered an error processing your message. Please try again." }, st)

def emptyEnv : ApiEnv :=
  { wiki := fun _ => none, weather := fun _ => none, weatherStatus := "no_key",
    news := [], newsStatus := "no_key" }

def emptyNova : NovaState :=
  { memory_log := [], memory_file := Json.arr [] }

/-! The proactive agent (agent_core.py): pending actions, completed
actions, and the overdue scan with its duplicate suppression. -/

inductive ParamVal where
  | str (s : String) : ParamVal
  | entries (l : List Entry) : ParamVal
deriving DecidableEq

structure AgentAction where
  action_type : String
  description : String
  target : Option String := none
  parameters : Option (List (String × ParamVal)) := none
  priority : Nat := 5
  scheduled_time : Option String := none
  requires_approval : Bool := false
  action_id : Option String := none
deriving DecidableEq

inductive ActionResult where
  | errorRes (message : String) : ActionResult
  | respRes (message : String) : ActionResult
  | briefingRes (payload : String) : ActionResult
deriving DecidableEq

structure CompletedAction where
  action : AgentAction
  executed_at : Nat
  result : ActionResult
deriving DecidableEq

structure AgentFile where
  pending_actions : List AgentAction
  completed_actions : List CompletedAction
  insights : List String
deriving DecidableEq

structure AgentState where
  pending_actions : List AgentAction
  completed_actions : List CompletedAction
  insights : List String
  agent_file : AgentFile
deriving DecidableEq

def save_agent_memory (st : AgentState) : AgentState :=
  { st with agent_file :=
      { pending_actions := st.pending_actions,
        completed_actions := takeLast 100 st.completed_actions,
        insights := takeLast 50 st.insights } }

def add_pending_action (action : AgentAction) (st : AgentState) : AgentState :=
  if st.pending_actions.any (fun existing =>
       decide (existing.action_type = action.action_type ∧
               existing.description = action.description)) then st
  else save_agent_memory { st with pending_actions := st.pending_actions ++ [action] }

def overdueItems (nowT : Nat) (log : List Entry) : List Entry :=
  log.filter (fun entry =>
    match entry.due_date with
    | some d => decide (d < nowT) &&
        decide (entry.category = "task" ∨ entry.category = "reminder")
    | none => false)

def overdueDescription (n : Nat) : String :=
  "You have " ++ Nat.repr n ++ " overdue items"

def overdueAction (items : List Entry) (actionId : String) : AgentAction :=
  { action_type := "notification",
    description := overdueDescription items.length,
    parameters := some [("items", ParamVal.entries items), ("type", ParamVal.str ("overdue"))],
    priority := 8,
    action_id := some actionId }

def check_overdue_items (nowT : Nat) (log : List Entry) (actionId : String)
    (st : AgentState) : AgentState :=
  let items := overdueItems nowT log
  if items.isEmpty then st
  else add_pending_action (overdueAction items actionId) st

def paramsGet (params : Option (List (String × ParamVal))) (k : String) : Option ParamVal :=
  match params with
  | none => none
  | some l =>
    match l.find? (fun p => decide (p.1 = k)) with
    | some p => some p.2
    | none => none

def removeFirstAction (a : AgentAction) : List AgentAction → List AgentAction
  | [] => []
  | x :: rest => if x = a then rest else x :: removeFirstAction a rest

def execute_action (briefing : ActionResult) (nowT : Nat) (action_id : String)
    (st : AgentState) : ActionResult × AgentState :=
  match st.pending_actions.find? (fun a => decide (a.action_id = some action_id)) with
  | none => (ActionResult.errorRes ("Action not found"), st)
  | some action =>
    let result :=
      if action.action_type = "suggestion" ∧
         paramsGet action.parameters ("type") = some (ParamVal.str ("daily_briefing")) then
        briefing
      else ActionResult.respRes ("Executed: " ++ action.description)
    let st1 := save_agent_memory
      { st with
        pending_actions := removeFirstAction action st.pending_actions,
        completed_actions := st.completed_actions ++
          [{ action := action, executed_at := nowT, result := result }] }
    (result, st1)

def emptyAgent : AgentState :=
  { pending_actions := [], completed_actions := [], insights := [],
    agent_file := { pending_actions := [], completed_actions := [], insights := [] } }

/-! Concrete states used by witnesses and counterexamples. -/

def cacheW : SmartCache Nat :=
  { cache_data := [("k", { data := 7, expires_at := 10, created_at := 0 }),
                   ("j", { data := 8, expires_at := 3, created_at := 0 })],
    cache_file := [("k", { data := 7, expires_at := 10, created_at := 0 }),
                   ("j", { data := 8, expires_at := 3, created_at := 0 })] }

def wikiOnlyEnv : ApiEnv :=
  { wiki := fun q => if q = "wiki:" then some ("A summary") else none,
    weather := fun _ => none, weatherStatus := "no_key",
    news := [], newsStatus := "no_key" }

def dupAction : AgentAction :=
  { action_type := "notification", description := "dup" }

def dupState : AgentState :=
  { pending_actions := [dupAction], completed_actions := [], insights := [],
    agent_file := { pending_actions := [], completed_actions := [], insights := [] } }

def overdueLog : List Entry :=
  [{ timestamp := 0, category := "task", text := "file the report", tags := [],
     due_date := some 50, recurring := none }]

def knownAction : AgentAction :=
  { action_type := "notification", description := "known", action_id := some ("a1") }

def knownState : AgentState :=
  { pending_actions := [knownAction], completed_actions := [], insights := [],
    agent_file := { pending_actions := [], completed_actions := [], insights := [] } }

/-! Helper lemmas about the string primitives. -/

theorem isPrefixCL_iff : ∀ (p s : List Char), isPrefixCL p s = true ↔ p <+: s
  | [], s => by simp [isPrefixCL]
  | a :: as, [] => by simp [isPrefixCL]
  | a :: as, b :: bs => by
    simp [isPrefixCL, isPrefixCL_iff as bs, List.cons_prefix_cons]

theorem isInfixCL_iff : ∀ (n h : List Char), isInfixCL n h = true ↔ n <:+: h
  | n, [] => by
    cases n <;> simp [isInfixCL, List.isEmpty]
  | n, c :: rest => by
    simp [isInfixCL, isPrefixCL_iff, isInfixCL_iff n rest, List.infix_cons_iff]

theorem containsStr_mono (t a b : String) (hba : isInfixCL b.data a.data = true)
    (hat : containsStr t a = true) : containsStr t b = true := by
  have h1 := (isInfixCL_iff b.data a.data).mp hba
  have h2 := (isInfixCL_iff a.data t.data).mp hat
  exact (isInfixCL_iff b.data t.data).mpr (h1.trans h2)

theorem containsStr_of_startsWith (s p : String) (h : startsWithStr s p = true) :
    containsStr s p = true := by
  have h1 := (isPrefixCL_iff p.data s.data).mp h
  exact (isInfixCL_iff p.data s.data).mpr h1.isInfix

/-! Helper lemmas about the cache association list. -/

theorem lookupKey_eraseKey_self {α : Type} (k : String) :
    ∀ l : List (String × CacheEntry α), lookupKey k (eraseKey k l) = none
  | [] => rfl
  | (k', e) :: rest => by
    by_cases h : k' = k
    · simp [eraseKey, h, lookupKey_eraseKey_self k rest]
    · simp [eraseKey, h, lookupKey, lookupKey_eraseKey_self k rest]

theorem lookupKey_eraseKey_ne {α : Type} (k k' : String) (h : k' ≠ k) :
    ∀ l : List (String × CacheEntry α), lookupKey k' (eraseKey k l) = lookupKey k' l
  | [] => rfl
  | (k'', e) :: rest => by
    simp only [eraseKey, lookupKey]
    by_cases h2 : k'' = k
    · rw [if_pos h2, lookupKey_eraseKey_ne k k' h rest,
          if_neg (fun he => h (he.symm.trans h2))]
    · rw [if_neg h2]
      simp only [lookupKey]
      rw [lookupKey_eraseKey_ne k k' h rest]

/-- Claim C1: for every cache state and key, `get` at time `now` returns the
stored value iff the key is present and `now` is strictly before the entry's
expires_at; otherwise it misses, and a present-but-expired entry is removed
by the access, so a get never returns a value whose expires_at has passed. -/
theorem cache_get_expiry_spec {α : Type} (c : SmartCache α) (key : String) (now : Int) :
    (∀ e, lookupKey key c.cache_data = some e →
      (now < e.expires_at → SmartCache.get c key now = (some e.data, c)) ∧
      (e.expires_at ≤ now →
        (SmartCache.get c key now).1 = none ∧
        lookupKey key (SmartCache.get c key now).2.cache_data = none)) ∧
    (lookupKey key c.cache_data = none → SmartCache.get c key now = (none, c)) ∧
    (∀ v, (SmartCache.get c key now).1 = some v →
      ∃ e, lookupKey key c.cache_data = some e ∧ e.data = v ∧ now < e.expires_at) := by
  refine ⟨?_, ?_, ?_⟩
  · intro e he
    constructor
    · intro hlt
      simp [SmartCache.get, he, hlt]
    · intro hge
      have hnlt : ¬ now < e.expires_at := not_lt.mpr hge
      simp [SmartCache.get, he, hnlt, lookupKey_eraseKey_self]
  · intro hnone
    simp [SmartCache.get, hnone]
  · intro v hv
    cases he : lookupKey key c.cache_data with
    | none => simp [SmartCache.get, he] at hv
    | some e =>
      by_cases hlt : now < e.expires_at
      · simp [SmartCache.get, he, hlt] at hv
        exact ⟨e, rfl, hv, hlt⟩
      · simp [SmartCache.get, he, hlt] at hv

theorem cache_get_expiry_spec_witness :
    SmartCache.get cacheW ("k") 5 = (some 7, cacheW) ∧
    ((SmartCache.get cacheW ("j") 5).1 = none ∧
      lookupKey ("j") (SmartCache.get cacheW ("j") 5).2.cache_data = none) := by
  constructor
  · exact ((cache_get_expiry_spec cacheW ("k") 5).1
      { data := 7, expires_at := 10, created_at := 0 } (by decide)).1 (by decide)
  · exact ((cache_get_expiry_spec cacheW ("j") 5).1
      { data := 8, expires_at := 3, created_at := 0 } (by decide)).2 (by decide)

/-- Claim C10: a `get` touches at most the single entry for its key: the
backing file is never written, every other key's binding is unchanged, an
unexpired hit (or an absent key) leaves the state identical, an expired
access deletes exactly that key, and the in-memory data is next persisted
by `set` (which resynchronises the file with the data). -/
theorem cache_get_frame {α : Type} (c : SmartCache α) (key : String) (now : Int) :
    (SmartCache.get c key now).2.cache_file = c.cache_file ∧
    (∀ k', k' ≠ key →
      lookupKey k' (SmartCache.get c key now).2.cache_data = lookupKey k' c.cache_data) ∧
    (∀ e, lookupKey key c.cache_data = some e → now < e.expires_at →
      (SmartCache.get c key now).2 = c) ∧
    (lookupKey key c.cache_data = none → (SmartCache.get c key now).2 = c) ∧
    (∀ e, lookupKey key c.cache_data = some e → e.expires_at ≤ now →
      (SmartCache.get c key now).2.cache_data = eraseKey key c.cache_data) ∧
    (∀ (v : α) (ttl : Int),
      (SmartCache.set c key v ttl now).cache_file = (SmartCache.set c key v ttl now).cache_data) := by
  refine ⟨?_, ?_, ?_, ?_, ?_, ?_⟩
  · cases he : lookupKey key c.cache_data with
    | none => simp [SmartCache.get, he]
    | some e =>
      by_cases hlt : now < e.expires_at <;> simp [SmartCache.get, he, hlt]
  · intro k' hk
    cases he : lookupKey key c.cache_data with
    | none => simp [SmartCache.get, he]
    | some e =>
      by_cases hlt : now < e.expires_at
      · simp [SmartCache.get, he, hlt]
      · simp [SmartCache.get, he, hlt, lookupKey_eraseKey_ne key k' hk c.cache_data]
  · intro e he hlt
    simp [SmartCache.get, he, hlt]
  · intro hnone
    simp [SmartCache.get, hnone]
  · intro e he hge
    have hnlt : ¬ now < e.expires_at := not_lt.mpr hge
    simp [SmartCache.get, he, hnlt]
  · intro v ttl
    rfl

theorem cache_get_frame_witness :
    (SmartCache.get cacheW ("j") 5).2.cache_file = cacheW.cache_file ∧
    lookupKey ("k") (SmartCache.get cacheW ("j") 5).2.cache_data = lookupKey ("k") cacheW.cache_data ∧
    (SmartCache.get cacheW ("k") 5).2 = cacheW ∧
    (SmartCache.get cacheW ("j") 5).2.cache_data = eraseKey ("j") cacheW.cache_data := by
  refine ⟨(cache_get_frame cacheW ("j") 5).1,
          (cache_get_frame cacheW ("j") 5).2.1 ("k") (by decide),
          (cache_get_frame cacheW ("k") 5).2.2.1
            { data := 7, expires_at := 10, created_at := 0 } (by decide) (by decide),
          (cache_get_frame cacheW ("j") 5).2.2.2.2.1
            { data := 8, expires_at := 3, created_at := 0 } (by decide) (by decide)⟩

/-- Claim C2: any text that contains (case-insensitively, as a substring)
some recurring_reminder keyword is classified recurring_reminder, whatever
other category keywords it also contains: the recurring check is the first
one detect_category runs. -/
theorem detect_category_recurring_priority (text kw : String)
    (hmem : kw ∈ recurringKeywords)
    (hsub : containsStr (lowerStr text) kw = true) :
    detect_category text = "recurring_reminder" := by
  have hhit : keywordHit recurringKeywords (lowerStr text) = true := by
    unfold keywordHit
    exact List.any_eq_true.mpr ⟨kw, hmem, hsub⟩
  simp [detect_category, hhit]

theorem detect_category_recurring_priority_witness :
    ("every" ∈ recurringKeywords) ∧
    containsStr (lowerStr ("Check the weather every day")) ("every") = true ∧
    detect_category ("Check the weather every day") = "recurring_reminder" :=
  ⟨by decide, by decide,
   detect_category_recurring_priority ("Check the weather every day") ("every")
     (by decide) (by decide)⟩

/-- Claim C3 (amended): a message whose lowercase form begins with
wikipedia: or wiki: and whose remainder after the colon is nonempty once
stripped bypasses the classifier: process_message is exactly the forced
Wikipedia lookup applied to that stripped remainder. -/
theorem process_message_wiki_override (env : ApiEnv) (nowT : Nat) (st : NovaState)
    (message : String)
    (hpre : (startsWithStr (lowerStr message) ("wikipedia:") ||
             startsWithStr (lowerStr message) ("wiki:")) = true)
    (hq : wikiQuery message ≠ "") :
    process_message env nowT st message = forcedWikiLookup env nowT st (wikiQuery message) := by
  simp [process_message, processMessageE, hpre, hq]

/-- Claim C3 counterexample: the message "wiki:" starts with the wiki:
prefix, yet process_message does not behave as the forced lookup on the
(empty) remainder: it falls through to the classifier, which sends the
whole message to the knowledge branch. -/
theorem process_message_wiki_override_cex :
    startsWithStr (lowerStr ("wiki:")) ("wiki:") = true ∧
    (process_message wikiOnlyEnv 0 emptyNova ("wiki:")).1.rtype = "knowledge" ∧
    (forcedWikiLookup wikiOnlyEnv 0 emptyNova (wikiQuery ("wiki:"))).1.rtype = "error" ∧
    process_message wikiOnlyEnv 0 emptyNova ("wiki:") ≠
      forcedWikiLookup wikiOnlyEnv 0 emptyNova (wikiQuery ("wiki:")) := by
  refine ⟨by decide, by decide, by decide, ?_⟩
  intro h
  have h1 := congrArg (fun r => r.1.rtype) h
  simp only at h1
  rw [show (process_message wikiOnlyEnv 0 emptyNova ("wiki:")).1.rtype = "knowledge" from by decide,
      show (forcedWikiLookup wikiOnlyEnv 0 emptyNova (wikiQuery ("wiki:"))).1.rtype = "error" from by decide] at h1
  exact absurd h1 (by decide)

theorem process_message_wiki_override_witness :
    ((startsWithStr (lowerStr ("wiki: Python")) ("wikipedia:") ||
      startsWithStr (lowerStr ("wiki: Python")) ("wiki:")) = true) ∧
    wikiQuery ("wiki: Python") = "Python" ∧
    process_message wikiOnlyEnv 0 emptyNova ("wiki: Python") =
      forcedWikiLookup wikiOnlyEnv 0 emptyNova (wikiQuery ("wiki: Python")) :=
  ⟨by decide, by decide,
   process_message_wiki_override wikiOnlyEnv 0 emptyNova ("wiki: Python")
     (by decide) (by decide)⟩

/-! Round-trip lemmas for journal persistence (claim C4). -/

theorem strListOfJson_map (ts : List String) :
    strListOfJson (ts.map Json.str) = some ts := by
  induction ts with
  | nil => rfl
  | cons s rest ih => simp [strListOfJson, ih]

theorem entryOfJson_entryToJson (e : Entry) : entryOfJson (entryToJson e) = some e := by
  cases e with
  | mk ts cat tx tags due recOpt =>
    cases recOpt <;> cases due <;>
      simp [entryToJson, entryOfJson, jsonLookup, strListOfJson_map, optNumJson]

theorem decodeEntries_map (l : List Entry) :
    decodeEntries (l.map entryToJson) = some l := by
  induction l with
  | nil => rfl
  | cons e rest ih => simp [decodeEntries, entryOfJson_entryToJson, ih]

theorem load_of_save (st : NovaState) :
    load_memory (save_memory st).memory_file = st.memory_log := by
  simp [load_memory, save_memory, encodeMemory, decodeMemory, decodeEntries_map]

/-- Claim C4: saving the journal and reloading it reproduces the same
ordered entry sequence with identical fields; in particular this holds
for the state right after any log_entry (which itself persists the log). -/
theorem memory_roundtrip (st : NovaState) (nowT : Nat) (category content : String)
    (tags : List String) (due : Option Nat) (recurring : Option String) :
    load_memory (save_memory st).memory_file = st.memory_log ∧
    load_memory (log_entry nowT category content tags due recurring st).memory_file =
      (log_entry nowT category content tags due recurring st).memory_log :=
  ⟨load_of_save st, load_of_save _⟩

/-- Claim C5: duplicate suppression for pending actions: an insert whose
(action_type, description) already occurs is refused; the
pairwise-distinctness invariant is preserved by add_pending_action; and
two overdue scans over an unchanged overdue set enqueue exactly one
pending action. -/
theorem pending_action_dedup (a : AgentAction) (st st0 : AgentState) (log : List Entry)
    (now1 now2 : Nat) (id1 id2 : String) :
    (st.pending_actions.any (fun existing =>
        decide (existing.action_type = a.action_type ∧
                existing.description = a.description)) = true →
      add_pending_action a st = st) ∧
    (st.pending_actions.Pairwise (fun x y =>
        ¬(x.action_type = y.action_type ∧ x.description = y.description)) →
      (add_pending_action a st).pending_actions.Pairwise (fun x y =>
        ¬(x.action_type = y.action_type ∧ x.description = y.description))) ∧
    (overdueItems now1 log = overdueItems now2 log →
     (overdueItems now1 log).isEmpty = false →
     (∀ e ∈ st0.pending_actions,
        ¬(e.action_type = "notification" ∧
          e.description = overdueDescription (overdueItems now1 log).length)) →
     (check_overdue_items now2 log id2 (check_overdue_items now1 log id1 st0)).pending_actions =
       st0.pending_actions ++ [overdueAction (overdueItems now1 log) id1]) := by
  refine ⟨?_, ?_, ?_⟩
  · intro hdup
    unfold add_pending_action
    rw [if_pos hdup]
  · intro hpair
    cases hdup : st.pending_actions.any (fun existing =>
        decide (existing.action_type = a.action_type ∧
                existing.description = a.description)) with
    | true =>
      unfold add_pending_action
      rw [if_pos hdup]
      exact hpair
    | false =>
      have hfresh := List.any_eq_false.mp hdup
      unfold add_pending_action
      rw [if_neg (by rw [hdup]; exact Bool.false_ne_true)]
      show List.Pairwise _ (st.pending_actions ++ [a])
      rw [List.pairwise_append]
      refine ⟨hpair, List.pairwise_singleton _ _, ?_⟩
      intro x hx y hy
      rw [List.mem_singleton] at hy
      subst hy
      have := hfresh x hx
      simpa using this
  · intro hsame hne hfresh
    have hany : st0.pending_actions.any (fun existing =>
        decide (existing.action_type = (overdueAction (overdueItems now1 log) id1).action_type ∧
                existing.description = (overdueAction (overdueItems now1 log) id1).description)) = false := by
      rw [List.any_eq_false]
      intro e he
      simp only [overdueAction, decide_eq_true_eq]
      exact fun hc => hfresh e he hc
    have hfirst : (check_overdue_items now1 log id1 st0).pending_actions =
        st0.pending_actions ++ [overdueAction (overdueItems now1 log) id1] := by
      simp only [check_overdue_items]
      rw [if_neg (by rw [hne]; exact Bool.false_ne_true)]
      unfold add_pending_action
      rw [if_neg (by rw [hany]; exact Bool.false_ne_true)]
      rfl
    have hdup2 : (check_overdue_items now1 log id1 st0).pending_actions.any
        (fun existing =>
          decide (existing.action_type = (overdueAction (overdueItems now2 log) id2).action_type ∧
                  existing.description = (overdueAction (overdueItems now2 log) id2).description)) = true := by
      rw [List.any_eq_true]
      refine ⟨overdueAction (overdueItems now1 log) id1, ?_, ?_⟩
      · rw [hfirst]
        exact List.mem_append_right _ (List.mem_singleton.mpr rfl)
      · simp [overdueAction, hsame]
    have hne2 : (overdueItems now2 log).isEmpty = false := hsame ▸ hne
    have hstep : check_overdue_items now2 log id2 (check_overdue_items now1 log id1 st0) =
        check_overdue_items now1 log id1 st0 := by
      conv_lhs => rw [check_overdue_items]
      rw [if_neg (by rw [hne2]; exact Bool.false_ne_true)]
      unfold add_pending_action
      rw [if_pos hdup2]
    rw [hstep, hfirst]

theorem pending_action_dedup_witness :
    add_pending_action dupAction dupState = dupState ∧
    (check_overdue_items 101 overdueLog ("overdue_1")
       (check_overdue_items 100 overdueLog ("overdue_0") emptyAgent)).pending_actions =
      emptyAgent.pending_actions ++ [overdueAction (overdueItems 100 overdueLog) ("overdue_0")] := by
  constructor
  · exact (pending_action_dedup dupAction dupState emptyAgent overdueLog 100 101
      ("overdue_0") ("overdue_1")).1 (by decide)
  · exact (pending_action_dedup dupAction dupState emptyAgent overdueLog 100 101
      ("overdue_0") ("overdue_1")).2.2 (by decide) (by decide) (by decide)

/-- Claim C6: executing an action id that matches no pending action
returns the error result and leaves the whole agent state (pending set
and completed history included) unchanged. -/
theorem execute_action_unknown (briefing : ActionResult) (nowT : Nat) (action_id : String)
    (st : AgentState)
    (h : ∀ a ∈ st.pending_actions, a.action_id ≠ some action_id) :
    execute_action briefing nowT action_id st = (ActionResult.errorRes ("Action not found"), st) := by
  have hfind : st.pending_actions.find? (fun a => decide (a.action_id = some action_id)) = none :=
    List.find?_eq_none.mpr (fun a ha => by simpa using h a ha)
  simp [execute_action, hfind]

theorem execute_action_unknown_witness :
    execute_action (ActionResult.briefingRes ("b")) 7 ("missing") knownState =
      (ActionResult.errorRes ("Action not found"), knownState) :=
  execute_action_unknown (ActionResult.briefingRes ("b")) 7 ("missing") knownState (by decide)

/-- Claim C7 (evaluation at the failing input): the text
"day after tomorrow" contains the phrase day after tomorrow and not the
phrase today, yet parse_due_date yields now + 1 day, not now + 2 days:
the tomorrow branch tests first and shadows the dedicated
day-after-tomorrow branch, which is unreachable. -/
theorem parse_due_date_day_after_tomorrow (now : Nat) :
    containsStr (lowerStr ("day after tomorrow")) ("day after tomorrow") = true ∧
    containsStr (lowerStr ("day after tomorrow")) ("today") = false ∧
    parse_due_date now ("day after tomorrow") = Except.ok (some (now + 86400)) ∧
    (Except.ok (some (now + 86400)) : Except String (Option Nat)) ≠
      Except.ok (some (now + 2 * 86400)) := by
  refine ⟨by decide, by decide, rfl, ?_⟩
  simp only [ne_eq, Except.ok.injEq, Option.some.injEq]
  omega

/-- Claim C8 (amended): parse_due_date("remind me tomorrow at 3pm") is
tomorrow's date at 15:00:00, with 12am mapping to hour 0 and 12pm to
hour 12 and minutes defaulting to 0; a text containing "in 2 days" with
none of the earlier phrases (today / tomorrow / next week), whose first
"in N unit" occurrence is "in 2 days", and with no at-H[:MM] clock time,
yields now + 2 days; and extract_recurring("every monday") is
"every monday". -/
theorem parse_due_date_examples (now : Nat) (text : String)
    (h2 : containsStr (lowerStr text) ("in 2 days") = true)
    (htoday : containsStr (lowerStr text) ("today") = false)
    (htomorrow : containsStr (lowerStr text) ("tomorrow") = false)
    (hweek : containsStr (lowerStr text) ("next week") = false)
    (hfirst : searchInPattern (lowerStr text).data = some (2, "day"))
    (hclock : searchAtTime (lowerStr text).data = none) :
    parse_due_date now ("remind me tomorrow at 3pm") =
      Except.ok (some (dayStart (now + 86400) + 15 * 3600)) ∧
    parse_due_date now ("remind me tomorrow at 12am") =
      Except.ok (some (dayStart (now + 86400))) ∧
    parse_due_date now ("remind me tomorrow at 12pm") =
      Except.ok (some (dayStart (now + 86400) + 12 * 3600)) ∧
    parse_due_date now text = Except.ok (some (now + 2 * 86400)) ∧
    extract_recurring ("every monday") = some ("every monday") := by
  have e3pm : parse_due_date now ("remind me tomorrow at 3pm") =
      Except.ok (some (dayStart (now + 86400) + 15 * 3600)) := by
    simp only [parse_due_date]
    rw [if_neg (by rw [show containsStr (lowerStr ("remind me tomorrow at 3pm")) ("today") = false
          from by decide]; exact Bool.false_ne_true),
        if_pos (show containsStr (lowerStr ("remind me tomorrow at 3pm")) ("tomorrow") = true
          from by decide),
        show searchAtTime (lowerStr ("remind me tomorrow at 3pm")).data = some (3, 0, some true)
          from by decide]
    norm_num
  have e12am : parse_due_date now ("remind me tomorrow at 12am") =
      Except.ok (some (dayStart (now + 86400))) := by
    simp only [parse_due_date]
    rw [if_neg (by rw [show containsStr (lowerStr ("remind me tomorrow at 12am")) ("today") = false
          from by decide]; exact Bool.false_ne_true),
        if_pos (show containsStr (lowerStr ("remind me tomorrow at 12am")) ("tomorrow") = true
          from by decide),
        show searchAtTime (lowerStr ("remind me tomorrow at 12am")).data = some (12, 0, some false)
          from by decide]
    norm_num
  have e12pm : parse_due_date now ("remind me tomorrow at 12pm") =
      Except.ok (some (dayStart (now + 86400) + 12 * 3600)) := by
    simp only [parse_due_date]
    rw [if_neg (by rw [show containsStr (lowerStr ("remind me tomorrow at 12pm")) ("today") = false
          from by decide]; exact Bool.false_ne_true),
        if_pos (show containsStr (lowerStr ("remind me tomorrow at 12pm")) ("tomorrow") = true
          from by decide),
        show searchAtTime (lowerStr ("remind me tomorrow at 12pm")).data = some (12, 0, some true)
          from by decide]
    norm_num
  refine ⟨e3pm, e12am, e12pm, ?_, by decide⟩
  have hin : containsStr (lowerStr text) ("in ") = true :=
    containsStr_mono (lowerStr text) ("in 2 days") ("in ") (by decide) h2
  have hdat : containsStr (lowerStr text) ("day after tomorrow") = false := by
    cases hd : containsStr (lowerStr text) ("day after tomorrow") with
    | false => rfl
    | true =>
      have hc := containsStr_mono (lowerStr text) ("day after tomorrow") ("tomorrow")
        (by decide) hd
      rw [htomorrow] at hc
      exact absurd hc Bool.false_ne_true
  simp only [parse_due_date]
  rw [if_neg (by rw [htoday]; exact Bool.false_ne_true),
      if_neg (by rw [htomorrow]; exact Bool.false_ne_true),
      if_neg (by rw [hdat]; exact Bool.false_ne_true),
      if_neg (by rw [hweek]; exact Bool.false_ne_true),
      if_pos hin, hfirst]
  simp [hclock, show containsStr ("day") ("day") = true from by decide]

/-- Claim C8 counterexample: "today in 2 days" contains "in 2 days" and
no clock time, yet parse_due_date returns now (the today branch wins),
not now + 2 days — the middle example does not hold for every text
containing "in 2 days". -/
theorem parse_due_date_examples_cex :
    containsStr (lowerStr ("today in 2 days")) ("in 2 days") = true ∧
    searchAtTime (lowerStr ("today in 2 days")).data = none ∧
    parse_due_date 0 ("today in 2 days") = Except.ok (some 0) ∧
    parse_due_date 0 ("today in 2 days") ≠ Except.ok (some (0 + 2 * 86400)) := by
  refine ⟨by decide, by decide, by decide, by decide⟩

theorem parse_due_date_examples_witness :
    parse_due_date 123456 ("in 2 days") = Except.ok (some (123456 + 2 * 86400)) ∧
    parse_due_date 123456 ("remind me tomorrow at 3pm") =
      Except.ok (some (dayStart (123456 + 86400) + 15 * 3600)) := by
  have h := parse_due_date_examples 123456 ("in 2 days") (by decide) (by decide)
    (by decide) (by decide) (by decide) (by decide)
  exact ⟨h.2.2.2.1, h.1⟩

/-! Helper lemmas for claim C9: an uncategorized message cannot start
with the wikipedia:/wiki: prefixes, because those prefixes are
themselves knowledge_query keywords. -/

theorem detect_ne_uncat_of_knowledge (message : String)
    (hk : keywordHit knowledgeKeywords (lowerStr message) = true) :
    detect_category message ≠ "uncategorized" := by
  simp only [detect_category]
  cases hr : keywordHit recurringKeywords (lowerStr message) with
  | true => simp
  | false =>
    rw [if_neg Bool.false_ne_true, if_pos hk]
    decide

theorem detect_uncat_no_wiki (message : String)
    (h : detect_category message = "uncategorized") :
    startsWithStr (lowerStr message) ("wikipedia:") = false ∧
    startsWithStr (lowerStr message) ("wiki:") = false := by
  constructor
  · cases hp : startsWithStr (lowerStr message) ("wikipedia:") with
    | false => rfl
    | true =>
      have hc := containsStr_of_startsWith _ _ hp
      have hk : keywordHit knowledgeKeywords (lowerStr message) = true := by
        unfold keywordHit
        exact List.any_eq_true.mpr ⟨"wikipedia:", by decide, hc⟩
      exact absurd h (detect_ne_uncat_of_knowledge message hk)
  · cases hp : startsWithStr (lowerStr message) ("wiki:") with
    | false => rfl
    | true =>
      have hc := containsStr_of_startsWith _ _ hp
      have hk : keywordHit knowledgeKeywords (lowerStr message) = true := by
        unfold keywordHit
        exact List.any_eq_true.mpr ⟨"wiki:", by decide, hc⟩
      exact absurd h (detect_ne_uncat_of_knowledge message hk)

/-- Claim C9 (amended): a message that matches no keyword (classified
uncategorized) and is no command (not show-prefixed, not help, not
clear memory), and whose due-date parse raises no error, is answered by
process_message with a structured success response — it is logged as an
uncategorized entry, not rejected: the empty-message rejection lives in
the HTTP route, not in process_message, which never raises. -/
theorem process_message_uncategorized (env : ApiEnv) (nowT : Nat) (st : NovaState)
    (message : String) (due : Option Nat)
    (hcat : detect_category message = "uncategorized")
    (hshow : startsWithStr (lowerStr message) ("show") = false)
    (hhelp : lowerStr message ≠ "help")
    (hclear : lowerStr message ≠ "clear memory")
    (hparse : parse_due_date nowT message = Except.ok due) :
    (process_message env nowT st message).1.rtype = "success" := by
  obtain ⟨hw1, hw2⟩ := detect_uncat_no_wiki message hcat
  simp only [process_message, processMessageE]
  rw [if_neg (by rw [hw1, hw2]; decide)]
  simp only [processRest]
  rw [if_neg (by rw [hshow]; exact Bool.false_ne_true), if_neg hhelp, if_neg hclear, hcat]
  rw [if_neg (by decide)]
  simp only [handle_memory_operation, hparse]

/-- Claim C9 counterexample: the empty message is answered with a
response of type success (it is logged as uncategorized), not with the
error type the claim asserts. -/
theorem process_message_empty_cex :
    (process_message emptyEnv 0 emptyNova ("")).1.rtype = "success" ∧
    (process_message emptyEnv 0 emptyNova ("")).1.rtype ≠ "error" :=
  ⟨by decide, by decide⟩

theorem process_message_uncategorized_witness :
    detect_category ("") = "uncategorized" ∧
    (process_message emptyEnv 0 emptyNova ("")).1.rtype = "success" :=
  ⟨by decide,
   process_message_uncategorized emptyEnv 0 emptyNova ("") none
     (by decide) (by decide) (by decide) (by decide) (by decide)⟩
